import Mathlib

/-!
Verification of the patch-overlay data model and derived-view engine of the
aila2 alignment viewer (src/app.js), shallowly embedded in Lean 4.

JavaScript records (glossary entries, rules, morphemes, patches) are duck
typed string-to-string objects; we model them extensionally as
`String → Option String` (`none` = field absent, i.e. `undefined`).
The patch store is a map from string keys `"<kind>:<identifier>"` to patch
objects.  Typed record structures mirror the documented JSON shapes of the
three base documents; converting them to `Obj` models how the parsed JSON
objects flow through the duck-typed functions.
-/

namespace Aila2

/-- A JavaScript object restricted to string-valued fields, viewed
extensionally: `o f` is `some v` when field `f` is present with value `v`. -/
abbrev Obj := String → Option String

/-- The object `{}` with no fields. -/
def emptyObj : Obj := fun _ => none

/-- JS spread `{...base, ...patch}`: fields of `patch` win, everything else
falls through to `base`. -/
def spread (base patch : Obj) : Obj := fun f =>
  match patch f with
  | some v => some v
  | none => base f

/-- The patch store `state.patches`: a map from composite string keys to
patch objects. -/
abbrev PatchStore := String → Option Obj

/-- `getPatchKey` from src/app.js: the template literal `type:idOrForm`. -/
def getPatchKey (type idOrForm : String) : String := type ++ ":" ++ idOrForm

/-- Identifier extraction inside `getEntryWithPatch`: unknown entries use
`form`, others use `id`. -/
def identifierOf (type : String) (entry : Obj) : Option String :=
  if type = "unknown" then entry "form" else entry "id"

/-- JS template-literal coercion: an `undefined` identifier interpolates as
the string `undefined`. -/
def jsString (o : Option String) : String := o.getD "undefined"

/-- The store key `getEntryWithPatch` consults for a given record. -/
def entryKey (type : String) (entry : Obj) : String :=
  getPatchKey type (jsString (identifierOf type entry))

/-- `getEntryWithPatch` from src/app.js: look up the patch for the record's
key and return `patch ? {...entry, ...patch} : entry`. -/
def getEntryWithPatch (patches : PatchStore) (type : String) (entry : Obj) : Obj :=
  match patches (entryKey type entry) with
  | some patch => spread entry patch
  | none => entry

/-- `hasPatched` from src/app.js: `!!state.patches[getPatchKey(type, idOrForm)]`.
Any stored object is truthy, so this is presence of the key. -/
def hasPatched (patches : PatchStore) (type idOrForm : String) : Bool :=
  (patches (getPatchKey type idOrForm)).isSome

/-! ### Concrete fixtures used by witnesses and counterexamples -/

/-- Build an object from field/value bindings; a later binding for the same
field wins, matching successive JS property assignments. -/
def listToObj : List (String × String) → Obj
  | [] => emptyObj
  | fv :: rest => fun f =>
    match listToObj rest f with
    | some v => some v
    | none => if f = fv.1 then some fv.2 else none

/-- A sample glossary entry record, as the duck-typed object the code sees. -/
def sampleEntry : Obj := listToObj [("id", "g1"), ("form", "ama"), ("gloss", "love"), ("pos", "v")]

/-- A store holding one patch for `glossary:g1` that rewrites the gloss. -/
def sampleStore : PatchStore := fun k =>
  if k = "glossary:g1" then some (listToObj [("gloss", "love (intr.)")]) else none

/-- An unknown-morpheme record whose stored patch rewrites its `form`,
the identity field for the unknown kind. -/
def driftMorpheme : Obj := listToObj [("form", "ta"), ("gloss", "?")]

/-- A store in which the patch for `unknown:ta` renames the form to `na`,
and a second patch is stored under `unknown:na`. -/
def driftStore : PatchStore := fun k =>
  if k = "unknown:ta" then some (listToObj [("form", "na")])
  else if k = "unknown:na" then some (listToObj [("gloss", "PAST")])
  else none

/-- A store whose only entry is the empty patch object `{}`. -/
def emptyPatchStore : PatchStore := fun k =>
  if k = "glossary:g9" then some emptyObj else none

/-! ### C1: field-wise override semantics of the entry resolver -/

/-- C1: for every kind and base record, `getEntryWithPatch` returns the base
unchanged when no patch is stored under the record's key; otherwise patch
fields strictly win and fields absent from the patch fall through to the
base; and an empty stored patch is the identity. -/
theorem getEntryWithPatch_override (patches : PatchStore) (type : String) (entry : Obj) :
    (patches (entryKey type entry) = none → getEntryWithPatch patches type entry = entry)
    ∧ (∀ p, patches (entryKey type entry) = some p →
        (∀ f v, p f = some v → getEntryWithPatch patches type entry f = some v)
        ∧ (∀ f, p f = none → getEntryWithPatch patches type entry f = entry f))
    ∧ (patches (entryKey type entry) = some emptyObj →
        getEntryWithPatch patches type entry = entry) := by
  refine ⟨fun h => ?_, fun p hp => ⟨fun f v hf => ?_, fun f hf => ?_⟩, fun h => ?_⟩
  · simp [getEntryWithPatch, h]
  · simp [getEntryWithPatch, hp, spread, hf]
  · simp [getEntryWithPatch, hp, spread, hf]
  · funext f
    simp [getEntryWithPatch, h, spread, emptyObj]

/-- Witness for C1 on the concrete scenario of the spec: patching entry `g1`
with a new gloss overrides `gloss` and leaves `form` alone, and a record with
no stored patch resolves to itself. -/
theorem getEntryWithPatch_override_witness :
    getEntryWithPatch sampleStore "glossary" sampleEntry "gloss" = some "love (intr.)"
    ∧ getEntryWithPatch sampleStore "glossary" sampleEntry "form" = sampleEntry "form"
    ∧ getEntryWithPatch sampleStore "unknown" driftMorpheme = driftMorpheme := by
  have h := getEntryWithPatch_override sampleStore "glossary" sampleEntry
  have h2 := getEntryWithPatch_override sampleStore "unknown" driftMorpheme
  refine ⟨(h.2.1 _ rfl).1 "gloss" "love (intr.)" rfl, (h.2.1 _ rfl).2 "form" rfl, h2.1 rfl⟩

/-! ### C8: idempotence of the entry resolver -/

/-- C8 counterexample: resolving twice is not the same as resolving once,
because a patch may rewrite the identity field (`form` for the unknown kind)
and redirect the second resolution to a different key. -/
theorem getEntryWithPatch_not_idempotent :
    getEntryWithPatch driftStore "unknown"
        (getEntryWithPatch driftStore "unknown" driftMorpheme) "gloss"
      ≠ getEntryWithPatch driftStore "unknown" driftMorpheme "gloss" := by
  decide

/-- C8 amended: `getEntryWithPatch` is idempotent under a fixed store
whenever resolution does not change the record's identity (its `id`, or its
`form` for the unknown kind), i.e. whenever the stored patch leaves the
identity field alone. -/
theorem getEntryWithPatch_idempotent (patches : PatchStore) (type : String) (entry : Obj)
    (h : identifierOf type (getEntryWithPatch patches type entry) = identifierOf type entry) :
    getEntryWithPatch patches type (getEntryWithPatch patches type entry)
      = getEntryWithPatch patches type entry := by
  have hkey : entryKey type (getEntryWithPatch patches type entry) = entryKey type entry := by
    simp [entryKey, h]
  cases hp : patches (entryKey type entry) with
  | none =>
    have h1 : getEntryWithPatch patches type entry = entry := by
      simp [getEntryWithPatch, hp]
    rw [h1]
    simp [getEntryWithPatch, hp]
  | some p =>
    have hres : getEntryWithPatch patches type entry = spread entry p := by
      simp [getEntryWithPatch, hp]
    rw [hres] at hkey ⊢
    simp only [getEntryWithPatch, hkey, hp]
    funext f
    simp only [spread]
    cases hf : p f <;> simp [hf]

/-- Witness for C8 amended: the sample gloss patch does not touch the `id`
field, so resolving the sample entry twice equals resolving it once. -/
theorem getEntryWithPatch_idempotent_witness :
    getEntryWithPatch sampleStore "glossary"
        (getEntryWithPatch sampleStore "glossary" sampleEntry)
      = getEntryWithPatch sampleStore "glossary" sampleEntry :=
  getEntryWithPatch_idempotent sampleStore "glossary" sampleEntry (by decide)

/-! ### C10: hasPatched is key presence, not patch non-emptiness -/

/-- C10 counterexample: a stored *empty* patch object is truthy in JS, so
`hasPatched` reports `true` even though the patch for the key is empty,
contradicting the claim that it returns `false` for an empty stored patch. -/
theorem hasPatched_empty_patch :
    hasPatched emptyPatchStore "glossary" "g9" = true
    ∧ emptyPatchStore "glossary:g9" = some emptyObj := by
  constructor
  · rfl
  · rfl

/-- C10 amended: `hasPatched kind identifier` is `true` iff *some* patch
object (possibly empty) is stored under that key, and `false` exactly when no
patch is stored there at all. -/
theorem hasPatched_iff (patches : PatchStore) (type idOrForm : String) :
    (hasPatched patches type idOrForm = true
      ↔ ∃ p, patches (getPatchKey type idOrForm) = some p)
    ∧ (hasPatched patches type idOrForm = false
      ↔ patches (getPatchKey type idOrForm) = none) := by
  cases hh : patches (getPatchKey type idOrForm) <;> simp [hasPatched, hh]

/-! ### savePatch: building and merging patches (C6, C7) -/

/-- The field-diff loop inside `savePatch`: keep exactly the submitted fields
whose value differs from the original record's value, an absent original
field comparing as the empty string (`entry[field] || ''`). -/
def diffFields (entry : Obj) (fieldEdits : List (String × String)) : List (String × String) :=
  fieldEdits.filter (fun fv => fv.2 ≠ (entry fv.1).getD "")

/-- `savePatch` from src/app.js, as a function of the store, the edited
record and the submitted field/value list.  Returns the new store and
whether `savePatches` (persistence) was invoked.  When the retained diff is
non-empty the stored patch for the record's key becomes
`{...state.patches[key], ...patch}`; otherwise nothing happens. -/
def savePatch (patches : PatchStore) (type : String) (entry : Obj)
    (fieldEdits : List (String × String)) : PatchStore × Bool :=
  let key := entryKey type entry
  let patchFields := diffFields entry fieldEdits
  if patchFields.isEmpty then (patches, false)
  else
    (fun k => if k = key
        then some (spread ((patches key).getD emptyObj) (listToObj patchFields))
        else patches k,
      true)

theorem listToObj_mem {l : List (String × String)} {f v : String}
    (h : listToObj l f = some v) : (f, v) ∈ l := by
  induction l with
  | nil => simp [listToObj, emptyObj] at h
  | cons fv rest ih =>
    simp only [listToObj] at h
    cases hr : listToObj rest f with
    | some w =>
      rw [hr] at h
      exact List.mem_cons_of_mem _ (ih (hr.trans h))
    | none =>
      rw [hr] at h
      have h : (if f = fv.1 then some fv.2 else none) = some v := h
      by_cases hf : f = fv.1
      · rw [if_pos hf] at h
        injection h with h2
        subst h2
        subst hf
        exact List.mem_cons_self _ _
      · rw [if_neg hf] at h
        cases h

theorem listToObj_none {l : List (String × String)} {f : String}
    (h : ∀ fv ∈ l, fv.1 ≠ f) : listToObj l f = none := by
  induction l with
  | nil => rfl
  | cons fv rest ih =>
    have hr := ih (fun gv hg => h gv (List.mem_cons_of_mem _ hg))
    simp only [listToObj, hr]
    rw [if_neg]
    exact fun he => h fv (List.mem_cons_self _ _) he.symm

theorem listToObj_mem_nodup {l : List (String × String)} {f v : String}
    (hn : (l.map Prod.fst).Nodup) (h : (f, v) ∈ l) : listToObj l f = some v := by
  induction l with
  | nil => cases h
  | cons fv rest ih =>
    have hn' : (rest.map Prod.fst).Nodup := (List.nodup_cons.mp (by simpa using hn)).2
    rcases List.mem_cons.mp h with he | hm
    · have hf1 : fv.1 = f := by rw [← he]
      have hnot : ∀ gv ∈ rest, gv.1 ≠ f := by
        intro gv hg hcon
        have hmem : fv.1 ∈ rest.map Prod.fst := by
          rw [hf1, ← hcon]
          exact List.mem_map_of_mem Prod.fst hg
        exact (List.nodup_cons.mp (by simpa using hn)).1 hmem
      have hr := listToObj_none hnot
      simp only [listToObj, hr]
      rw [if_pos hf1.symm, ← he]
    · have hr := ih hn' hm
      simp only [listToObj, hr]

theorem diffFields_eq_self {entry : Obj} {l : List (String × String)}
    (h : ∀ fv ∈ l, fv.2 ≠ (entry fv.1).getD "") : diffFields entry l = l := by
  apply List.filter_eq_self.mpr
  intro fv hfv
  simpa using h fv hfv

/-- C7: a submitted edit in which every field value equals the base record's
value (an absent base field comparing as the empty string) leaves the store
unchanged and triggers no persistence call; and in general only fields that
differ from the original record are retained into the built patch. -/
theorem savePatch_noop (patches : PatchStore) (type : String) (entry : Obj)
    (fieldEdits : List (String × String)) :
    ((∀ fv ∈ fieldEdits, fv.2 = (entry fv.1).getD "") →
      savePatch patches type entry fieldEdits = (patches, false))
    ∧ (∀ f v, listToObj (diffFields entry fieldEdits) f = some v →
        (f, v) ∈ fieldEdits ∧ v ≠ (entry f).getD "") := by
  constructor
  · intro h
    have hempty : diffFields entry fieldEdits = [] := by
      apply List.filter_eq_nil_iff.mpr
      intro fv hfv
      simpa using h fv hfv
    simp [savePatch, hempty]
  · intro f v hv
    have hmem := listToObj_mem hv
    have := List.mem_filter.mp hmem
    refine ⟨this.1, ?_⟩
    simpa using this.2

/-- Witness for C7: submitting the base values of the sample entry is a
no-op on an empty store, with no persistence call. -/
theorem savePatch_noop_witness :
    savePatch (fun _ => none) "glossary" sampleEntry [("gloss", "love"), ("form", "ama")]
      = (fun _ => none, false) :=
  (savePatch_noop (fun _ => none) "glossary" sampleEntry
    [("gloss", "love"), ("form", "ama")]).1 (by decide)

/-- C6 counterexample: with base `pos = "v"`, applying `E1 = {gloss ↦ "X"}`
then the disjoint `E2 = {pos ↦ "v"}` does *not* leave a stored patch holding
the union of both edits' fields: `pos` equals the base value, is dropped by
the diff, and never reaches the store (the second call is a no-op). -/
theorem savePatch_union_fails :
    (((savePatch (savePatch (fun _ => none) "glossary" sampleEntry [("gloss", "X")]).1
          "glossary" sampleEntry [("pos", "v")]).1 "glossary:g1").getD emptyObj) "pos" = none
    ∧ (((savePatch (savePatch (fun _ => none) "glossary" sampleEntry [("gloss", "X")]).1
          "glossary" sampleEntry [("pos", "v")]).1 "glossary:g1").getD emptyObj) "gloss"
        = some "X" := by
  constructor <;> rfl

/-- C6 amended: saving a patch for an already-patched key merges
field-by-field — new values overwrite the fields present in the new edit and
previously patched fields outside it survive — *provided every submitted
value differs from the base record's value*, since fields equal to the base
are dropped by the diff.  Under that proviso, edits `E1` then `E2` with
disjoint field sets yield a stored patch containing the union of both edits'
fields with correct values, while fields outside both edits keep their
previously stored value. -/
theorem savePatch_merge (patches : PatchStore) (type : String) (entry : Obj)
    (E1 E2 : List (String × String))
    (h1 : ∀ fv ∈ E1, fv.2 ≠ (entry fv.1).getD "")
    (h2 : ∀ fv ∈ E2, fv.2 ≠ (entry fv.1).getD "")
    (hdisj : ∀ fv ∈ E1, ∀ gv ∈ E2, fv.1 ≠ gv.1)
    (hn1 : (E1.map Prod.fst).Nodup)
    (hn2 : (E2.map Prod.fst).Nodup)
    (hE2 : E2 ≠ []) :
    ∃ p, (savePatch (savePatch patches type entry E1).1 type entry E2).1
          (entryKey type entry) = some p
      ∧ (∀ fv ∈ E1, p fv.1 = some fv.2)
      ∧ (∀ fv ∈ E2, p fv.1 = some fv.2)
      ∧ (∀ f, (∀ fv ∈ E1, fv.1 ≠ f) → (∀ fv ∈ E2, fv.1 ≠ f) →
          p f = ((patches (entryKey type entry)).getD emptyObj) f) := by
  have hd1 : diffFields entry E1 = E1 := diffFields_eq_self h1
  have hd2 : diffFields entry E2 = E2 := diffFields_eq_self h2
  set key := entryKey type entry with hkey
  set st1 := (savePatch patches type entry E1).1 with hst1
  have hstep2 : (savePatch st1 type entry E2).1
      = fun k => if k = key
          then some (spread ((st1 key).getD emptyObj) (listToObj E2))
          else st1 k := by
    simp only [savePatch, hd2, List.isEmpty_eq_true]
    rw [if_neg hE2]
  have hst1key : (st1 key).getD emptyObj
      = (if E1.isEmpty then (patches key).getD emptyObj
         else spread ((patches key).getD emptyObj) (listToObj E1)) := by
    by_cases he1 : E1 = []
    · subst he1
      simp [hst1, savePatch, diffFields]
    · simp only [hst1, savePatch, hd1, List.isEmpty_eq_true]
      rw [if_neg he1, if_neg he1]
      simp
  refine ⟨spread ((st1 key).getD emptyObj) (listToObj E2), ?_, ?_, ?_, ?_⟩
  · rw [hstep2]
    simp
  · intro fv hfv
    have hne2 : listToObj E2 fv.1 = none :=
      listToObj_none (fun gv hg => (hdisj fv hfv gv hg).symm)
    have he1 : ¬ E1.isEmpty := by
      intro hcon
      rw [List.isEmpty_eq_true] at hcon
      subst hcon
      cases hfv
    rw [hst1key, if_neg he1]
    simp only [spread, hne2]
    rw [listToObj_mem_nodup hn1 hfv]
  · intro gv hgv
    simp only [spread]
    rw [listToObj_mem_nodup hn2 hgv]
  · intro f hf1 hf2
    have hne2 : listToObj E2 f = none := listToObj_none hf2
    have hne1 : listToObj E1 f = none := listToObj_none hf1
    simp only [spread, hne2]
    rw [hst1key]
    by_cases he1 : E1.isEmpty
    · rw [if_pos he1]
    · rw [if_neg he1]
      simp only [spread, hne1]

/-- Witness for C6 amended: `E1 = {gloss ↦ "X"}` then `E2 = {pos ↦ "n"}`
(both differing from the base values, disjoint fields) leaves a stored patch
for `glossary:g1` holding both fields. -/
theorem savePatch_merge_witness :
    ∃ p, (savePatch (savePatch (fun _ => none) "glossary" sampleEntry [("gloss", "X")]).1
          "glossary" sampleEntry [("pos", "n")]).1 (entryKey "glossary" sampleEntry) = some p
      ∧ (∀ fv ∈ [(("gloss" : String), ("X" : String))], p fv.1 = some fv.2)
      ∧ (∀ fv ∈ [(("pos" : String), ("n" : String))], p fv.1 = some fv.2)
      ∧ (∀ f, (∀ fv ∈ [(("gloss" : String), ("X" : String))], fv.1 ≠ f) →
          (∀ fv ∈ [(("pos" : String), ("n" : String))], fv.1 ≠ f) →
          p f = (((fun _ => none : PatchStore) (entryKey "glossary" sampleEntry)).getD emptyObj) f) :=
  savePatch_merge (fun _ => none) "glossary" sampleEntry
    [("gloss", "X")] [("pos", "n")]
    (by decide) (by decide) (by decide) (by decide) (by decide) (by decide)

/-! ### Typed base documents

The documented JSON shapes of the three base documents (§3 of the spec):
glossary entries and rules carry their required fields, `notes` and
`description` are optional, morphemes may lack `source_type`/`source_id`.
`toObj` renders each parsed record as the duck-typed object the code sees. -/

structure GlossaryEntry where
  id : String
  form : String
  gloss : String
  pos : String
  notes : Option String
deriving DecidableEq

def GlossaryEntry.toObj (e : GlossaryEntry) : Obj := fun f =>
  if f = "id" then some e.id
  else if f = "form" then some e.form
  else if f = "gloss" then some e.gloss
  else if f = "pos" then some e.pos
  else if f = "notes" then e.notes
  else none

structure Rule where
  id : String
  form : String
  gloss : String
  type : String
  description : Option String
deriving DecidableEq

def Rule.toObj (r : Rule) : Obj := fun f =>
  if f = "id" then some r.id
  else if f = "form" then some r.form
  else if f = "gloss" then some r.gloss
  else if f = "type" then some r.type
  else if f = "description" then r.description
  else none

structure Morpheme where
  form : String
  gloss : String
  type : String
  source_type : Option String
  source_id : Option String
deriving DecidableEq

def Morpheme.toObj (m : Morpheme) : Obj := fun f =>
  if f = "form" then some m.form
  else if f = "gloss" then some m.gloss
  else if f = "type" then some m.type
  else if f = "source_type" then m.source_type
  else if f = "source_id" then m.source_id
  else none

structure Word where
  word : String
  morphemes : List Morpheme
deriving DecidableEq

structure GlossaryDocument where
  entries : List GlossaryEntry
deriving DecidableEq

structure RuleDocument where
  rules : List Rule
deriving DecidableEq

/-! ### getWordStatus (C2) -/

/-- The filter inside `getWordStatus` that keeps an unknown morpheme in the
unpatched set: the effective record's gloss is falsy (absent or empty) or
equal to the morpheme's own gloss. -/
def unpatchedUnknown (patches : PatchStore) (m : Morpheme) : Bool :=
  match (getEntryWithPatch patches "unknown" m.toObj) "gloss" with
  | none => true
  | some g => g = "" || g = m.gloss

/-- The `unknownMorphemes` list of `getWordStatus`. -/
def unknownMorphemes (word : Word) : List Morpheme :=
  word.morphemes.filter (fun m => m.type = "unknown")

/-- The `knownMorphemes` list of `getWordStatus`. -/
def knownMorphemes (word : Word) : List Morpheme :=
  word.morphemes.filter (fun m => m.type ≠ "unknown")

/-- The `unpatchedUnknowns` list of `getWordStatus`. -/
def unpatchedUnknowns (patches : PatchStore) (word : Word) : List Morpheme :=
  (unknownMorphemes word).filter (unpatchedUnknown patches)

/-- The code's `hasUnpatched` flag. -/
def codeHasUnpatched (patches : PatchStore) (word : Word) : Prop :=
  (unpatchedUnknowns patches word).length > 0

/-- The code's `hasPatched` flag: some unknown morpheme survived the
unpatched filter, i.e. strictly fewer unpatched unknowns than unknowns. -/
def codeHasPatchedUnknown (patches : PatchStore) (word : Word) : Prop :=
  (unknownMorphemes word).length > (unpatchedUnknowns patches word).length

/-- The code's `hasKnown` flag. -/
def codeHasKnown (word : Word) : Prop :=
  (knownMorphemes word).length > 0

instance (patches : PatchStore) (word : Word) : Decidable (codeHasUnpatched patches word) :=
  Nat.decLt _ _

instance (patches : PatchStore) (word : Word) :
    Decidable (codeHasPatchedUnknown patches word) :=
  Nat.decLt _ _

instance (word : Word) : Decidable (codeHasKnown word) :=
  Nat.decLt _ _

/-- `getWordStatus` from src/app.js. -/
def getWordStatus (patches : PatchStore) (word : Word) : String :=
  if codeHasUnpatched patches word
      ∧ (codeHasKnown word ∨ codeHasPatchedUnknown patches word)
  then "mixed"
  else if codeHasUnpatched patches word then "unknown"
  else if codeHasPatchedUnknown patches word then "patched"
  else "known"

/-- The spec's notion of a resolved unknown morpheme: the entry resolver
applied to its unknown-kind patch yields a non-empty gloss that differs from
the morpheme's own base gloss.  Stated from the spec's words, to be compared
with the filter the code runs. -/
def specResolvedUnknown (patches : PatchStore) (m : Morpheme) : Prop :=
  ∃ g, (getEntryWithPatch patches "unknown" m.toObj) "gloss" = some g
    ∧ g ≠ "" ∧ g ≠ m.gloss

/-- Spec condition: at least one unknown morpheme is not resolved. -/
def specHasUnresolvedUnknown (patches : PatchStore) (w : Word) : Prop :=
  ∃ m ∈ w.morphemes, m.type = "unknown" ∧ ¬ specResolvedUnknown patches m

/-- Spec condition: at least one unknown morpheme is resolved. -/
def specHasResolvedUnknown (patches : PatchStore) (w : Word) : Prop :=
  ∃ m ∈ w.morphemes, m.type = "unknown" ∧ specResolvedUnknown patches m

/-- Spec condition: at least one non-unknown morpheme exists. -/
def specHasKnown (w : Word) : Prop :=
  ∃ m ∈ w.morphemes, m.type ≠ "unknown"

theorem unpatchedUnknown_eq_false_iff (patches : PatchStore) (m : Morpheme) :
    unpatchedUnknown patches m = false ↔ specResolvedUnknown patches m := by
  unfold unpatchedUnknown specResolvedUnknown
  cases hg : (getEntryWithPatch patches "unknown" m.toObj) "gloss" with
  | none => simp
  | some g => simp

theorem length_filter_lt_iff {α : Type} (q : α → Bool) (l : List α) :
    (l.filter q).length < l.length ↔ ∃ x ∈ l, q x = false := by
  induction l with
  | nil => simp
  | cons a l ih =>
    by_cases hq : q a
    · simp only [List.filter_cons, hq, if_true, List.length_cons,
        Nat.succ_lt_succ_iff, ih, List.mem_cons]
      constructor
      · rintro ⟨x, hx, hxq⟩
        exact ⟨x, Or.inr hx, hxq⟩
      · rintro ⟨x, hx | hx, hxq⟩
        · subst hx
          simp [hq] at hxq
        · exact ⟨x, hx, hxq⟩
    · have hle : (l.filter q).length ≤ l.length := l.length_filter_le q
      simp only [List.filter_cons, Bool.eq_false_iff.mpr hq, if_false, List.length_cons]
      exact iff_of_true (Nat.lt_succ_of_le hle)
        ⟨a, List.mem_cons_self _ _, Bool.eq_false_iff.mpr hq⟩

/-- C2: `getWordStatus` classifies exactly as the spec's four-way rule, with
"resolved" for an unknown morpheme meaning a non-empty effective gloss
differing from its base gloss, and the result is always exactly one of the
four statuses. -/
theorem getWordStatus_classifies (patches : PatchStore) (w : Word) :
    (getWordStatus patches w = "mixed" ↔
      specHasUnresolvedUnknown patches w
        ∧ (specHasKnown w ∨ specHasResolvedUnknown patches w))
    ∧ (getWordStatus patches w = "unknown" ↔
      specHasUnresolvedUnknown patches w
        ∧ ¬ specHasKnown w ∧ ¬ specHasResolvedUnknown patches w)
    ∧ (getWordStatus patches w = "patched" ↔
      ¬ specHasUnresolvedUnknown patches w ∧ specHasResolvedUnknown patches w)
    ∧ (getWordStatus patches w = "known" ↔
      ¬ specHasUnresolvedUnknown patches w ∧ ¬ specHasResolvedUnknown patches w)
    ∧ getWordStatus patches w ∈ ["known", "patched", "unknown", "mixed"] := by
  have hU : codeHasUnpatched patches w ↔ specHasUnresolvedUnknown patches w := by
    unfold codeHasUnpatched unpatchedUnknowns unknownMorphemes specHasUnresolvedUnknown
    simp only [gt_iff_lt, List.length_pos_iff_exists_mem, List.mem_filter,
      decide_eq_true_eq]
    constructor
    · rintro ⟨m, ⟨hm, ht⟩, hq⟩
      exact ⟨m, hm, ht, fun hres =>
        by rw [(unpatchedUnknown_eq_false_iff patches m).mpr hres] at hq; cases hq⟩
    · rintro ⟨m, hm, ht, hres⟩
      refine ⟨m, ⟨hm, ht⟩, ?_⟩
      cases hq : unpatchedUnknown patches m with
      | true => rfl
      | false => exact absurd ((unpatchedUnknown_eq_false_iff patches m).mp hq) hres
  have hR : codeHasPatchedUnknown patches w ↔ specHasResolvedUnknown patches w := by
    unfold codeHasPatchedUnknown unpatchedUnknowns unknownMorphemes specHasResolvedUnknown
    rw [gt_iff_lt, length_filter_lt_iff]
    simp only [List.mem_filter, decide_eq_true_eq]
    constructor
    · rintro ⟨m, ⟨hm, ht⟩, hq⟩
      exact ⟨m, hm, ht, (unpatchedUnknown_eq_false_iff patches m).mp hq⟩
    · rintro ⟨m, hm, ht, hres⟩
      exact ⟨m, ⟨hm, ht⟩, (unpatchedUnknown_eq_false_iff patches m).mpr hres⟩
  have hK : codeHasKnown w ↔ specHasKnown w := by
    unfold codeHasKnown knownMorphemes specHasKnown
    simp [List.length_pos_iff_exists_mem, List.mem_filter]
  unfold getWordStatus
  by_cases hu : specHasUnresolvedUnknown patches w
    <;> by_cases hr : specHasResolvedUnknown patches w
    <;> by_cases hk : specHasKnown w
    <;> simp [hU, hR, hK, hu, hr, hk]

/-- Witness fixtures for the classifier: the spec's scenario word with one
known and one unknown morpheme. -/
def scenarioWord : Word :=
  { word := "amadu"
    morphemes :=
      [ { form := "ama", gloss := "love", type := "known"
          source_type := some "glossary", source_id := some "g1" }
      , { form := "du", gloss := "?", type := "unknown"
          source_type := none, source_id := none } ] }

/-- A store patching the unknown morpheme `du` with a new gloss. -/
def scenarioStore : PatchStore := fun k =>
  if k = "unknown:du" then some (listToObj [("gloss", "PAST")]) else none

/-! ### Strings: substring search and a concrete comparator -/

/-- Does `sub` occur at the start of `s` (as character lists)? -/
def charsStartWith : List Char → List Char → Bool
  | _, [] => true
  | [], _ :: _ => false
  | a :: as, b :: bs => a = b && charsStartWith as bs

/-- Does `sub` occur anywhere inside `s` (as character lists)? -/
def charsContain : List Char → List Char → Bool
  | [], sub => sub.isEmpty
  | a :: as, sub => charsStartWith (a :: as) sub || charsContain as sub

/-- JS `String.prototype.includes`. -/
def strIncludes (s sub : String) : Bool := charsContain s.data sub.data

/-- JS `String.prototype.toLowerCase`, modelled as per-character case
folding on the character list. -/
def strLower (s : String) : String := ⟨s.data.map Char.toLower⟩

/-- Lexicographic comparison of character lists by code point. -/
def charsCmp : List Char → List Char → Int
  | [], [] => 0
  | [], _ :: _ => -1
  | _ :: _, [] => 1
  | a :: as, b :: bs =>
    if a.toNat < b.toNat then -1
    else if b.toNat < a.toNat then 1
    else charsCmp as bs

/-- A concrete total comparator on strings, standing in for a fixed locale's
`localeCompare` when witnesses and counterexamples need one. -/
def strCmp (a b : String) : Int := charsCmp a.data b.data

theorem charsCmp_total (as : List Char) :
    ∀ bs, charsCmp as bs ≤ 0 ∨ charsCmp bs as ≤ 0 := by
  induction as with
  | nil => intro bs; cases bs <;> simp [charsCmp]
  | cons a as ih =>
    intro bs
    cases bs with
    | nil => right; simp [charsCmp]
    | cons b bs =>
      by_cases h1 : a.toNat < b.toNat
      · left; simp [charsCmp, h1]
      · by_cases h2 : b.toNat < a.toNat
        · right; simp [charsCmp, h2]
        · simpa [charsCmp, h1, h2] using ih bs

theorem charsCmp_trans (as : List Char) :
    ∀ bs cs, charsCmp as bs ≤ 0 → charsCmp bs cs ≤ 0 → charsCmp as cs ≤ 0 := by
  induction as with
  | nil => intro bs cs _ _; cases cs <;> simp [charsCmp]
  | cons a as ih =>
    intro bs cs h1 h2
    cases bs with
    | nil => simp [charsCmp] at h1
    | cons b bs =>
      cases cs with
      | nil => simp [charsCmp] at h2
      | cons c cs =>
        by_cases hab : a.toNat < b.toNat
        · by_cases hbc : b.toNat < c.toNat
          · have hac : a.toNat < c.toNat := Nat.lt_trans hab hbc
            simp [charsCmp, hac]
          · by_cases hcb : c.toNat < b.toNat
            · simp [charsCmp, hbc, hcb] at h2
            · have hbceq : b.toNat = c.toNat :=
                Nat.le_antisymm (Nat.le_of_not_lt hcb) (Nat.le_of_not_lt hbc)
              have hac : a.toNat < c.toNat := hbceq ▸ hab
              simp [charsCmp, hac]
        · by_cases hba : b.toNat < a.toNat
          · simp [charsCmp, hab, hba] at h1
          · have habeq : a.toNat = b.toNat :=
              Nat.le_antisymm (Nat.le_of_not_lt hba) (Nat.le_of_not_lt hab)
            have h1' : charsCmp as bs ≤ 0 := by simpa [charsCmp, hab, hba] using h1
            by_cases hbc : b.toNat < c.toNat
            · have hac : a.toNat < c.toNat := habeq ▸ hbc
              simp [charsCmp, hac]
            · by_cases hcb : c.toNat < b.toNat
              · simp [charsCmp, hbc, hcb] at h2
              · have hbceq : b.toNat = c.toNat :=
                  Nat.le_antisymm (Nat.le_of_not_lt hcb) (Nat.le_of_not_lt hbc)
                have h2' : charsCmp bs cs ≤ 0 := by simpa [charsCmp, hbc, hcb] using h2
                have hnac : ¬ a.toNat < c.toNat := by
                  rw [habeq, hbceq]; exact fun hc => absurd hc (lt_irrefl _)
                have hnca : ¬ c.toNat < a.toNat := by
                  rw [habeq, hbceq]; exact fun hc => absurd hc (lt_irrefl _)
                simpa [charsCmp, hnac, hnca] using ih bs cs h1' h2'

theorem strCmp_total (a b : String) : strCmp a b ≤ 0 ∨ strCmp b a ≤ 0 :=
  charsCmp_total a.data b.data

theorem strCmp_trans (a b c : String) (h1 : strCmp a b ≤ 0) (h2 : strCmp b c ≤ 0) :
    strCmp a c ≤ 0 :=
  charsCmp_trans a.data b.data c.data h1 h2

/-- Field access with a falsy default, used where the code reads a field that
is always present on the records it is handed (the typed base records carry
the field and patches only override with concrete strings). -/
def getStr (o : Obj) (f : String) : String := (o f).getD ""

/-! ### The glossary view (C3, C4) -/

/-- The `sourceIds` list inside `getFilteredGlossary`: the `source_id`s of
the selected word's glossary-typed morphemes (original, unpatched ids). -/
def glossarySourceIds (w : Word) : List (Option String) :=
  (w.morphemes.filter (fun m => m.source_type = some "glossary")).map
    (fun m => m.source_id)

/-- The selection-scoping step of `getFilteredGlossary`: applied only when
the selected word has at least one glossary-typed morpheme. -/
def scopeGlossary : Option Word → List GlossaryEntry → List GlossaryEntry
  | some w, entries =>
    if (glossarySourceIds w).length > 0 then
      entries.filter (fun e => (glossarySourceIds w).contains (some e.id))
    else entries
  | none, entries => entries

/-- The search predicate of `getFilteredGlossary`: case-insensitive substring
match of the query against the effective (patched) form and gloss. -/
def glossarySearchHit (patches : PatchStore) (search : String) (e : GlossaryEntry) : Bool :=
  let patched := getEntryWithPatch patches "glossary" e.toObj
  strIncludes (strLower (getStr patched "form")) search
    || strIncludes (strLower (getStr patched "gloss")) search

/-- The search-filter step of `getFilteredGlossary`, skipped on an empty
query. -/
def searchGlossary (patches : PatchStore) (search : String)
    (entries : List GlossaryEntry) : List GlossaryEntry :=
  if search ≠ "" then entries.filter (glossarySearchHit patches search) else entries

/-- The glossary sort relation of the code: the comparator applied to the
*base* `form` fields (`a.form.localeCompare(b.form)` on the original
entries). -/
def glossLe (cmp : String → String → Int) (a b : GlossaryEntry) : Prop :=
  cmp a.form b.form ≤ 0

instance (cmp : String → String → Int) : DecidableRel (glossLe cmp) :=
  fun _ _ => Int.decLe _ _

/-- `getFilteredGlossary` from src/app.js, parameterised by the locale
comparator: scope to the selected word, search-filter, sort by base form,
keep the first 50. -/
def getFilteredGlossary (cmp : String → String → Int) (glossary : GlossaryDocument)
    (patches : PatchStore) (sidebarSearch : String) (selectedWord : Option Word) :
    List GlossaryEntry :=
  (List.insertionSort (glossLe cmp)
    (searchGlossary patches (strLower sidebarSearch)
      (scopeGlossary selectedWord glossary.entries))).take 50

/-- The effective (patched) form of a glossary entry — what the claim says
the view sorts by. -/
def effForm (patches : PatchStore) (e : GlossaryEntry) : String :=
  getStr (getEntryWithPatch patches "glossary" e.toObj) "form"

/-- Fixtures for the glossary-view claims. -/
def entA : GlossaryEntry := { id := "1", form := "a", gloss := "ga", pos := "n", notes := none }

def entB : GlossaryEntry := { id := "2", form := "b", gloss := "gb", pos := "n", notes := none }

def gdoc : GlossaryDocument := { entries := [entA, entB] }

/-- A store patching entry `2`'s form from `b` down to `0`, so that the
effective order of the two entries is the reverse of their base order. -/
def formStore : PatchStore := fun k =>
  if k = "glossary:2" then some (listToObj [("form", "0")]) else none

/-- C3 counterexample: the view sorts by the *base* form, not the effective
one.  With entry `2`'s form patched to `0`, its effective form strictly
precedes entry `1`'s, yet the view still returns `1` before `2`: the output
is not sorted by effective form. -/
theorem getFilteredGlossary_not_sorted_by_effForm :
    getFilteredGlossary strCmp gdoc formStore "" none = [entA, entB]
    ∧ strCmp (effForm formStore entB) (effForm formStore entA) ≤ 0
    ∧ ¬ strCmp (effForm formStore entA) (effForm formStore entB) ≤ 0 := by
  refine ⟨by decide, by decide, by decide⟩

/-- C3 amended: for any comparator that is total and transitive on strings,
the glossary view returns at most 50 entries, sorted ascending by the
*original* (base) `form`; every returned entry comes from the
scope-then-search pipeline; any matching entry left out is at least as large
(on base form) as everything returned (truncation happens after filter and
sort); and when at most 50 entries match, the view returns exactly the
matching entries. -/
theorem getFilteredGlossary_sorted_truncated (cmp : String → String → Int)
    (glossary : GlossaryDocument) (patches : PatchStore) (sidebarSearch : String)
    (selectedWord : Option Word)
    (htot : ∀ a b : String, cmp a b ≤ 0 ∨ cmp b a ≤ 0)
    (htrans : ∀ a b c : String, cmp a b ≤ 0 → cmp b c ≤ 0 → cmp a c ≤ 0) :
    (getFilteredGlossary cmp glossary patches sidebarSearch selectedWord).length ≤ 50
    ∧ List.Sorted (glossLe cmp)
        (getFilteredGlossary cmp glossary patches sidebarSearch selectedWord)
    ∧ (∀ e ∈ getFilteredGlossary cmp glossary patches sidebarSearch selectedWord,
        e ∈ searchGlossary patches (strLower sidebarSearch)
              (scopeGlossary selectedWord glossary.entries))
    ∧ (∀ e ∈ searchGlossary patches (strLower sidebarSearch)
              (scopeGlossary selectedWord glossary.entries),
        e ∉ getFilteredGlossary cmp glossary patches sidebarSearch selectedWord →
        ∀ x ∈ getFilteredGlossary cmp glossary patches sidebarSearch selectedWord,
          glossLe cmp x e)
    ∧ ((searchGlossary patches (strLower sidebarSearch)
          (scopeGlossary selectedWord glossary.entries)).length ≤ 50 →
        (getFilteredGlossary cmp glossary patches sidebarSearch selectedWord).Perm
          (searchGlossary patches (strLower sidebarSearch)
            (scopeGlossary selectedWord glossary.entries))) := by
  haveI : IsTotal GlossaryEntry (glossLe cmp) := ⟨fun a b => htot a.form b.form⟩
  haveI : IsTrans GlossaryEntry (glossLe cmp) :=
    ⟨fun a b c => htrans a.form b.form c.form⟩
  set kept := searchGlossary patches (strLower sidebarSearch)
    (scopeGlossary selectedWord glossary.entries) with hkept
  set full := List.insertionSort (glossLe cmp) kept with hfull
  have hout : getFilteredGlossary cmp glossary patches sidebarSearch selectedWord
      = full.take 50 := rfl
  have hsorted : List.Sorted (glossLe cmp) full := List.sorted_insertionSort _ _
  have hperm : full.Perm kept := List.perm_insertionSort _ _
  rw [hout]
  refine ⟨List.length_take_le _ _,
    List.Pairwise.sublist (List.take_sublist _ _) hsorted, ?_, ?_, ?_⟩
  · intro e he
    exact hperm.mem_iff.mp ((List.take_sublist _ _).subset he)
  · intro e hekept henot x hx
    have hefull : e ∈ full := hperm.mem_iff.mpr hekept
    have hsplit : full = full.take 50 ++ full.drop 50 := (List.take_append_drop _ _).symm
    have hpw : (full.take 50 ++ full.drop 50).Pairwise (glossLe cmp) := by
      rw [← hsplit]; exact hsorted
    have hdrop : e ∈ full.drop 50 := by
      rcases (List.mem_append.mp (hsplit ▸ hefull)) with h | h
      · exact absurd h henot
      · exact h
    exact (List.pairwise_append.mp hpw).2.2 x hx e hdrop
  · intro hlen
    have : full.length ≤ 50 := hperm.length_eq ▸ hlen
    rw [List.take_of_length_le this]
    exact hperm

/-- Witness for C3 amended, at the concrete comparator `strCmp` on the
two-entry glossary with no query and no selection. -/
theorem getFilteredGlossary_sorted_truncated_witness :
    (getFilteredGlossary strCmp gdoc formStore "" none).length ≤ 50
    ∧ List.Sorted (glossLe strCmp) (getFilteredGlossary strCmp gdoc formStore "" none)
    ∧ (∀ e ∈ getFilteredGlossary strCmp gdoc formStore "" none,
        e ∈ searchGlossary formStore (strLower "")
              (scopeGlossary none gdoc.entries))
    ∧ (∀ e ∈ searchGlossary formStore (strLower "")
              (scopeGlossary none gdoc.entries),
        e ∉ getFilteredGlossary strCmp gdoc formStore "" none →
        ∀ x ∈ getFilteredGlossary strCmp gdoc formStore "" none, glossLe strCmp x e)
    ∧ ((searchGlossary formStore (strLower "")
          (scopeGlossary none gdoc.entries)).length ≤ 50 →
        (getFilteredGlossary strCmp gdoc formStore "" none).Perm
          (searchGlossary formStore (strLower "") (scopeGlossary none gdoc.entries))) :=
  getFilteredGlossary_sorted_truncated strCmp gdoc formStore "" none
    strCmp_total strCmp_trans

/-- A selected word with no glossary-typed morphemes at all. -/
def noGlossWord : Word :=
  { word := "w"
    morphemes := [ { form := "x", gloss := "?", type := "unknown"
                     source_type := none, source_id := none } ] }

/-- A selected word referencing glossary entry `1` (entA) by original id. -/
def refWord : Word :=
  { word := "r"
    morphemes := [ { form := "a", gloss := "ga", type := "known"
                     source_type := some "glossary", source_id := some "1" } ] }

/-- C4 counterexample: selecting a word whose morphemes reference no glossary
ids does not restrict the view to the (empty) referenced set — the code
skips scoping entirely when the `sourceIds` list is empty, so unrelated
entries are still returned. -/
theorem getFilteredGlossary_empty_scope_skipped :
    glossarySourceIds noGlossWord = []
    ∧ getFilteredGlossary strCmp gdoc (fun _ => none) "" (some noGlossWord)
        = [entA, entB] :=
  ⟨rfl, by decide⟩

/-- C4 amended: when the selected word has at least one glossary-typed
morpheme, every returned entry is one of the glossary entries whose
*original, unpatched* id the word references; when it has none, the
selection imposes no restriction and the view coincides with the unselected
view.  When a search query is also active every returned entry additionally
passes the search predicate on the scoped set (scope first, then search,
then sort, then truncate). -/
theorem getFilteredGlossary_scoped (cmp : String → String → Int)
    (glossary : GlossaryDocument) (patches : PatchStore) (sidebarSearch : String)
    (w : Word) :
    (∀ e ∈ getFilteredGlossary cmp glossary patches sidebarSearch (some w),
        e ∈ glossary.entries
        ∧ (glossarySourceIds w ≠ [] →
            (glossarySourceIds w).contains (some e.id) = true)
        ∧ (strLower sidebarSearch ≠ "" →
            glossarySearchHit patches (strLower sidebarSearch) e = true))
    ∧ (glossarySourceIds w = [] →
        getFilteredGlossary cmp glossary patches sidebarSearch (some w)
          = getFilteredGlossary cmp glossary patches sidebarSearch none) := by
  constructor
  · intro e he
    have hkept : e ∈ searchGlossary patches (strLower sidebarSearch)
        (scopeGlossary (some w) glossary.entries) :=
      (List.perm_insertionSort _ _).mem_iff.mp ((List.take_sublist _ _).subset he)
    have hscope : e ∈ scopeGlossary (some w) glossary.entries
        ∧ (strLower sidebarSearch ≠ "" →
            glossarySearchHit patches (strLower sidebarSearch) e = true) := by
      unfold searchGlossary at hkept
      by_cases hs : strLower sidebarSearch ≠ ""
      · rw [if_pos hs] at hkept
        have hm := List.mem_filter.mp hkept
        exact ⟨hm.1, fun _ => hm.2⟩
      · rw [if_neg hs] at hkept
        exact ⟨hkept, fun hcon => absurd hcon hs⟩
    have hsc := hscope.1
    rw [show scopeGlossary (some w) glossary.entries
        = (if (glossarySourceIds w).length > 0 then
            glossary.entries.filter (fun e => (glossarySourceIds w).contains (some e.id))
          else glossary.entries) from rfl] at hsc
    by_cases hids : (glossarySourceIds w).length > 0
    · rw [if_pos hids] at hsc
      have hm := List.mem_filter.mp hsc
      exact ⟨hm.1, fun _ => by simpa using hm.2, hscope.2⟩
    · rw [if_neg hids] at hsc
      have hempty : glossarySourceIds w = [] := by
        cases hgl : glossarySourceIds w with
        | nil => rfl
        | cons x xs => exact absurd (by rw [hgl]; simp) hids
      exact ⟨hsc, fun hne => absurd hempty hne, hscope.2⟩
  · intro hids
    have hsc : scopeGlossary (some w) glossary.entries
        = scopeGlossary none glossary.entries := by
      rw [show scopeGlossary (some w) glossary.entries
          = (if (glossarySourceIds w).length > 0 then
              glossary.entries.filter (fun e => (glossarySourceIds w).contains (some e.id))
            else glossary.entries) from rfl, hids]
      simp [scopeGlossary]
    unfold getFilteredGlossary
    rw [hsc]

/-- Witness for C4 amended: the word referencing entry `1` scopes the view
to referenced ids, and the word referencing nothing leaves the view equal to
the unselected one. -/
theorem getFilteredGlossary_scoped_witness :
    (entA ∈ gdoc.entries
      ∧ (glossarySourceIds refWord ≠ [] →
          (glossarySourceIds refWord).contains (some entA.id) = true)
      ∧ (strLower "" ≠ "" →
          glossarySearchHit (fun _ => none) (strLower "") entA = true))
    ∧ getFilteredGlossary strCmp gdoc (fun _ => none) "" (some noGlossWord)
        = getFilteredGlossary strCmp gdoc (fun _ => none) "" none :=
  ⟨(getFilteredGlossary_scoped strCmp gdoc (fun _ => none) "" refWord).1 entA (by decide),
   (getFilteredGlossary_scoped strCmp gdoc (fun _ => none) "" noGlossWord).2 rfl⟩

/-! ### The rule view (C5)

`getFilteredRules` reads `patched.description.toLowerCase()` inside its
search filter.  `description` is optional on rules, so the read can hit
`undefined`; fallible evaluation is modelled in `Except`, an `error` being
the TypeError the JS engine would throw. -/

/-- JS `Array.prototype.filter` with a fallible predicate: elements are
tested left to right and the first thrown error aborts the whole call. -/
def exceptFilter {ε α : Type} (p : α → Except ε Bool) : List α → Except ε (List α)
  | [] => Except.ok []
  | x :: xs => do
    let b ← p x
    let rest ← exceptFilter p xs
    pure (if b then x :: rest else rest)

/-- The `sourceIds` list inside `getFilteredRules`. -/
def ruleSourceIds (w : Word) : List (Option String) :=
  (w.morphemes.filter (fun m => m.source_type = some "rule")).map
    (fun m => m.source_id)

/-- The selection-scoping step of `getFilteredRules`. -/
def scopeRules : Option Word → List Rule → List Rule
  | some w, rs =>
    if (ruleSourceIds w).length > 0 then
      rs.filter (fun r => (ruleSourceIds w).contains (some r.id))
    else rs
  | none, rs => rs

/-- The rule sort relation of the code: the comparator on base `form`. -/
def ruleLe (cmp : String → String → Int) (a b : Rule) : Prop :=
  cmp a.form b.form ≤ 0

instance (cmp : String → String → Int) : DecidableRel (ruleLe cmp) :=
  fun _ _ => Int.decLe _ _

/-- The rule search predicate, with JS short-circuit order: `description` is
read only when neither the form nor the gloss matched; reading it on a rule
whose effective record has no description is a TypeError. -/
def ruleSearchHit (patches : PatchStore) (search : String) (r : Rule) :
    Except String Bool :=
  let patched := getEntryWithPatch patches "rule" r.toObj
  if strIncludes (strLower (getStr patched "form")) search then Except.ok true
  else if strIncludes (strLower (getStr patched "gloss")) search then Except.ok true
  else
    match patched "description" with
    | some d => Except.ok (strIncludes (strLower d) search)
    | none => Except.error "TypeError: cannot read toLowerCase of undefined"

/-- `getFilteredRules` from src/app.js: scope, search-filter (fallibly),
sort by base form; no truncation. -/
def getFilteredRules (cmp : String → String → Int) (rules : RuleDocument)
    (patches : PatchStore) (sidebarSearch : String) (selectedWord : Option Word) :
    Except String (List Rule) := do
  let search := strLower sidebarSearch
  let scopedRs := scopeRules selectedWord rules.rules
  let kept ← if search ≠ "" then exceptFilter (ruleSearchHit patches search) scopedRs
             else Except.ok scopedRs
  Except.ok (List.insertionSort (ruleLe cmp) kept)

/-- A rule whose optional `description` is absent, as the spec's data model
allows. -/
def bareRule : Rule :=
  { id := "r1", form := "ka", gloss := "NEG", type := "suffix", description := none }

def rdoc : RuleDocument := { rules := [bareRule] }

/-- C5: the rule view contract is *not* total.  On a rule document containing
a rule without a description, an active query that matches neither the
effective form nor the effective gloss reaches
`patched.description.toLowerCase()` and throws a TypeError instead of
returning a value. -/
theorem getFilteredRules_throws :
    getFilteredRules strCmp rdoc (fun _ => none) "zz" none
      = Except.error "TypeError: cannot read toLowerCase of undefined" := by
  rfl

/-! ### Morpheme resolution (C9) -/

/-- The per-morpheme result objects of `getMorphemeEntries`, tagged exactly
like the code's `{type: ..., entry, originalEntry, morpheme}` records. -/
inductive MorphemeEntry where
  | glossaryRef (entry : Obj) (originalEntry : GlossaryEntry) (morpheme : Morpheme)
  | ruleRef (entry : Obj) (originalRule : Rule) (morpheme : Morpheme)
  | unknownRef (morpheme : Morpheme)

/-- The body of the `map` inside `getMorphemeEntries`: look the morpheme up
in its source collection; a found entry is returned patched together with the
original; anything else — including a dangling `source_id` — degrades to the
unknown tag. -/
def resolveMorpheme (patches : PatchStore) (glossary : GlossaryDocument)
    (rules : RuleDocument) (m : Morpheme) : MorphemeEntry :=
  if m.source_type = some "glossary" then
    match glossary.entries.find? (fun e => m.source_id = some e.id) with
    | some entry =>
      MorphemeEntry.glossaryRef (getEntryWithPatch patches "glossary" entry.toObj) entry m
    | none => MorphemeEntry.unknownRef m
  else if m.source_type = some "rule" then
    match rules.rules.find? (fun r => m.source_id = some r.id) with
    | some rule =>
      MorphemeEntry.ruleRef (getEntryWithPatch patches "rule" rule.toObj) rule m
    | none => MorphemeEntry.unknownRef m
  else MorphemeEntry.unknownRef m

/-- `getMorphemeEntries` from src/app.js. -/
def getMorphemeEntries (patches : PatchStore) (glossary : GlossaryDocument)
    (rules : RuleDocument) : Option Word → List MorphemeEntry
  | none => []
  | some w => w.morphemes.map (resolveMorpheme patches glossary rules)

/-- C9: a morpheme whose `source_type` is glossary or rule but whose
`source_id` matches no record in the loaded documents resolves to the
unknown tag carrying the morpheme itself, and the word's resolution still
produces one result per morpheme (a dangling reference never fails the whole
resolution). -/
theorem getMorphemeEntries_dangling (patches : PatchStore)
    (glossary : GlossaryDocument) (rules : RuleDocument) (w : Word)
    (i : Nat) (m : Morpheme)
    (hm : w.morphemes[i]? = some m)
    (hst : m.source_type = some "glossary" ∨ m.source_type = some "rule")
    (hg : ∀ e ∈ glossary.entries, m.source_id ≠ some e.id)
    (hr : ∀ r ∈ rules.rules, m.source_id ≠ some r.id) :
    (getMorphemeEntries patches glossary rules (some w))[i]?
        = some (MorphemeEntry.unknownRef m)
    ∧ (getMorphemeEntries patches glossary rules (some w)).length
        = w.morphemes.length := by
  have hres : resolveMorpheme patches glossary rules m = MorphemeEntry.unknownRef m := by
    rcases hst with hglo | hrul
    · rw [resolveMorpheme, if_pos hglo]
      rw [List.find?_eq_none.mpr (fun e he => by simpa using hg e he)]
    · have hne : ¬ m.source_type = some "glossary" := by
        rw [hrul]; simp
      rw [resolveMorpheme, if_neg hne, if_pos hrul]
      rw [List.find?_eq_none.mpr (fun r hrr => by simpa using hr r hrr)]
  constructor
  · show (w.morphemes.map (resolveMorpheme patches glossary rules))[i]? = _
    rw [List.getElem?_map, hm, Option.map_some', hres]
  · show (w.morphemes.map (resolveMorpheme patches glossary rules)).length = _
    exact List.length_map _ _

/-- A word with a single morpheme referencing the nonexistent rule `r99`. -/
def danglingWord : Word :=
  { word := "d"
    morphemes := [ { form := "zu", gloss := "?", type := "known"
                     source_type := some "rule", source_id := some "r99" } ] }

/-- Witness for C9 at the dangling rule reference `r99` against the concrete
glossary and rule documents. -/
theorem getMorphemeEntries_dangling_witness :
    (getMorphemeEntries (fun _ => none) gdoc rdoc (some danglingWord))[0]?
        = some (MorphemeEntry.unknownRef
            { form := "zu", gloss := "?", type := "known"
              source_type := some "rule", source_id := some "r99" })
    ∧ (getMorphemeEntries (fun _ => none) gdoc rdoc (some danglingWord)).length
        = danglingWord.morphemes.length :=
  getMorphemeEntries_dangling (fun _ => none) gdoc rdoc danglingWord 0
    { form := "zu", gloss := "?", type := "known"
      source_type := some "rule", source_id := some "r99" }
    rfl (Or.inr rfl) (by decide) (by decide)

end Aila2
